import Mathlib

/-!
Verification development for the sgr-agent-erc3-test repository
(`agent.py`, `main.py`).  The Python source is shallowly embedded:

* the remote service (`Erc3Client`) and the language model are modelled
  as oracles (pure functions supplied by the environment);
* the two paged aggregators `list_my_projects` / `list_my_customers`
  are embedded as fuel-indexed loops over an explicit state, so that
  non-termination of the Python `while True` loop shows up as the
  `outOfFuel` outcome holding for every fuel value;
* Python exceptions are explicit outcome constructors: `ApiException`
  becomes an error value carrying its message string, and the
  `IndexError` that `[... ][0]` can raise becomes a `crash` outcome;
* the decision loop `run_agent` is embedded with its conversation log
  as an explicit list of messages.
-/

namespace Erc3Agent

/-- Employee identifiers (`dev.EmployeeID`). -/
abbrev EmployeeID := String

/-- One member entry of a project team; `agent.py` reads `t.employee`
and `t.role` (`list_my_projects`, line 92). -/
structure TeamEntry where
  employee : String
  role : String
deriving DecidableEq

/-- Detail record of a project as used by `list_my_projects`
(`api.get_project(p.id).project`): only the identifier and the team
are consumed by the embedded code. -/
structure ProjectDetail where
  id : String
  team : List TeamEntry
deriving DecidableEq

/-- Detail record of a customer (`api.get_customer(p.id).company`). -/
structure CompanyDetail where
  id : String
deriving DecidableEq

/-- Result of one remote call: either a payload or an `ApiException`
carrying its message/detail string. -/
inductive ApiResult (α : Type) where
  | ok : α → ApiResult α
  | apiErr : String → ApiResult α
deriving DecidableEq

/-- Response of `api.search_projects`: the optional page of project
summaries (the code reads only `p.id`, so a summary is just the
identifier) and the server-provided `next_offset` (−1 = done). -/
structure SearchProjectsResp where
  projects : Option (List String)
  next_offset : Int
deriving DecidableEq

/-- Response of `api.search_customers`: optional page of company
summaries plus `next_offset`. -/
structure SearchCustomersResp where
  companies : Option (List String)
  next_offset : Int
deriving DecidableEq

/-- Current record of an employee, as read back by
`client.get_employee(...).employee`; the six fields are exactly the
ones `my_dispatch` merges for `Req_UpdateEmployeeInfo`. -/
structure EmployeeRecord where
  notes : Option String
  salary : Option Nat
  wills : List String
  skills : List String
  location : Option String
  department : Option String
deriving DecidableEq

/-- The `dev.Req_UpdateEmployeeInfo` request: target employee plus the
six optional payload fields mutated in place by `my_dispatch`. -/
structure UpdateEmployeeReq where
  employee : EmployeeID
  notes : Option String
  salary : Option Nat
  wills : List String
  skills : List String
  location : Option String
  department : Option String
deriving DecidableEq

/-- Entity link of a `Req_ProvideAgentResponse` (kind + identifier). -/
structure Link where
  kind : String
  id : String
deriving DecidableEq

/-- The remote call that `client.dispatch` receives from the adapter.
Variants the adapter never touches are folded into `other`, since the
final `return client.dispatch(cmd)` of `my_dispatch` forwards them
unchanged. -/
inductive RemoteCall where
  | updateWiki (file content : String) (changed_by : Option EmployeeID)
  | updateEmployeeInfo (req : UpdateEmployeeReq)
  | provideAgentResponse (message outcome : String) (links : List Link)
  | other (name : String)
deriving DecidableEq

/-- Oracle model of `Erc3Client`: every remote operation used by
`agent.py` is a pure function of its arguments.  `search_projects`
takes offset, limit and the user of the `team=dict(employee_id=user)`
filter (with `include_archived=True` fixed at the call site);
`search_customers` takes offset, limit and the user of
`account_managers=[user]`.  `dispatchRemote` models `client.dispatch`
for direct calls, returning an opaque serialized payload. -/
structure Erc3Client where
  search_projects : Int → Nat → String → ApiResult SearchProjectsResp
  get_project : String → ApiResult ProjectDetail
  search_customers : Int → Nat → String → ApiResult SearchCustomersResp
  get_customer : String → ApiResult CompanyDetail
  get_employee : EmployeeID → ApiResult EmployeeRecord
  dispatchRemote : RemoteCall → ApiResult String

/-- Whether the character list `needle` occurs as a prefix of `hay`
(helper for the substring test of `"page limit exceeded" in str(e)`). -/
def charsStart : List Char → List Char → Bool
  | [], _ => true
  | _ :: _, [] => false
  | a :: as, b :: bs => a == b && charsStart as bs

/-- Whether `needle` occurs contiguously somewhere inside `hay`. -/
def charsContain (needle : List Char) : List Char → Bool
  | [] => needle.isEmpty
  | c :: t => charsStart needle (c :: t) || charsContain needle t

/-- Substring test on strings, modelling the Python expression
`needle in hay`. -/
def strContainsSub (hay needle : String) : Bool :=
  charsContain needle.toList hay.toList

/-- The retry predicate of both aggregators:
`"page limit exceeded" in str(e)`. -/
def hasPageLimitMsg (e : String) : Bool :=
  strContainsSub e "page limit exceeded"

/-- Mutable state of the `list_my_projects` loop: current offset,
current page limit and the two accumulated partitions (Python mutates
`next_offset`, `page_limit`, `lead_in`, `member_of` in place). -/
structure ProjState where
  offset : Int
  page_limit : Nat
  lead_in : List ProjectDetail
  member_of : List ProjectDetail
deriving DecidableEq

/-- Value returned by `list_my_projects`. -/
structure Resp_ListAllProjectsForUser where
  lead_in : List ProjectDetail
  member_of : List ProjectDetail
deriving DecidableEq

/-- Value returned by `list_my_customers`. -/
structure Resp_ListAllCustomersForUser where
  customers : List CompanyDetail
deriving DecidableEq

/-- Outcome of the body of one page of `list_my_projects`: finished
normally, raised an `ApiException` midway (the details appended before
the exception stay appended, matching the in-place list mutation), or
raised an `IndexError` from `[t for t in detail.team if ...][0]`. -/
inductive ProjBody where
  | done (lead_in member_of : List ProjectDetail)
  | apiErr (e : String) (lead_in member_of : List ProjectDetail)
  | crash
deriving DecidableEq

/-- The `for p in prjs.projects or []` body of `list_my_projects`:
fetch each detail, take the first team entry whose employee equals the
user (an empty selection raises `IndexError`, modelled as `crash`) and
partition by `role == "Lead"`. -/
def processProjects (o : Erc3Client) (user : String) :
    List String → List ProjectDetail → List ProjectDetail → ProjBody
  | [], ls, ms => .done ls ms
  | p :: rest, ls, ms =>
    match o.get_project p with
    | .apiErr e => .apiErr e ls ms
    | .ok detail =>
      match (detail.team.filter (fun t => t.employee == user)).head? with
      | none => .crash
      | some t =>
        if t.role == "Lead" then processProjects o user rest (ls ++ [detail]) ms
        else processProjects o user rest ls (ms ++ [detail])

/-- Outcome of a fuelled run of the `list_my_projects` loop.
`fatalApi` is the re-`raise` after the backoff floor, `crash` the
uncaught `IndexError`, `outOfFuel` means the `while True` loop was
still running when the fuel ran out. -/
inductive ProjAgg where
  | ok (resp : Resp_ListAllProjectsForUser)
  | fatalApi (e : String)
  | crash
  | outOfFuel
deriving DecidableEq

/-- One `while True` iteration of `list_my_projects`, fuel-indexed.
An `ApiException` from the search or from the page body hits the same
handler: on a page-limit message the limit is halved first and the
exception re-raised when the halved limit is ≤ 2, otherwise the loop
retries at the same offset with the halved limit; any other
`ApiException` is silently swallowed and the same request retried. -/
def listMyProjectsLoop (o : Erc3Client) (user : String) :
    Nat → ProjState → ProjAgg
  | 0, _ => .outOfFuel
  | fuel + 1, s =>
    match o.search_projects s.offset s.page_limit user with
    | .apiErr e =>
      if hasPageLimitMsg e then
        if s.page_limit / 2 ≤ 2 then .fatalApi e
        else listMyProjectsLoop o user fuel { s with page_limit := s.page_limit / 2 }
      else listMyProjectsLoop o user fuel s
    | .ok resp =>
      match processProjects o user (resp.projects.getD []) s.lead_in s.member_of with
      | .crash => .crash
      | .apiErr e ls ms =>
        if hasPageLimitMsg e then
          if s.page_limit / 2 ≤ 2 then .fatalApi e
          else listMyProjectsLoop o user fuel
            { s with page_limit := s.page_limit / 2, lead_in := ls, member_of := ms }
        else listMyProjectsLoop o user fuel { s with lead_in := ls, member_of := ms }
      | .done ls ms =>
        if resp.next_offset == -1 then .ok ⟨ls, ms⟩
        else listMyProjectsLoop o user fuel
          { s with offset := resp.next_offset, lead_in := ls, member_of := ms }

/-- `list_my_projects`: run the loop from `page_limit = 32`,
`next_offset = 0` and empty partitions. -/
def listMyProjects (o : Erc3Client) (user : String) (fuel : Nat) : ProjAgg :=
  listMyProjectsLoop o user fuel ⟨0, 32, [], []⟩

/-- Outcome of the body of one page of `list_my_customers` (no
indexing, so no crash case). -/
inductive CustBody where
  | done (loaded : List CompanyDetail)
  | apiErr (e : String) (loaded : List CompanyDetail)
deriving DecidableEq

/-- The `for p in custs.companies or []` body of `list_my_customers`. -/
def processCustomers (o : Erc3Client) :
    List String → List CompanyDetail → CustBody
  | [], acc => .done acc
  | c :: rest, acc =>
    match o.get_customer c with
    | .apiErr e => .apiErr e acc
    | .ok d => processCustomers o rest (acc ++ [d])

/-- Mutable state of the `list_my_customers` loop. -/
structure CustState where
  offset : Int
  page_limit : Nat
  loaded : List CompanyDetail
deriving DecidableEq

/-- Outcome of a fuelled run of the `list_my_customers` loop. -/
inductive CustAgg where
  | ok (resp : Resp_ListAllCustomersForUser)
  | fatalApi (e : String)
  | outOfFuel
deriving DecidableEq

/-- One `while True` iteration of `list_my_customers`, with the same
exception handler shape as `list_my_projects`. -/
def listMyCustomersLoop (o : Erc3Client) (user : String) :
    Nat → CustState → CustAgg
  | 0, _ => .outOfFuel
  | fuel + 1, s =>
    match o.search_customers s.offset s.page_limit user with
    | .apiErr e =>
      if hasPageLimitMsg e then
        if s.page_limit / 2 ≤ 2 then .fatalApi e
        else listMyCustomersLoop o user fuel { s with page_limit := s.page_limit / 2 }
      else listMyCustomersLoop o user fuel s
    | .ok resp =>
      match processCustomers o (resp.companies.getD []) s.loaded with
      | .apiErr e acc =>
        if hasPageLimitMsg e then
          if s.page_limit / 2 ≤ 2 then .fatalApi e
          else listMyCustomersLoop o user fuel
            { s with page_limit := s.page_limit / 2, loaded := acc }
        else listMyCustomersLoop o user fuel { s with loaded := acc }
      | .done acc =>
        if resp.next_offset == -1 then .ok ⟨acc⟩
        else listMyCustomersLoop o user fuel
          { s with offset := resp.next_offset, loaded := acc }

/-- `list_my_customers`: run the loop from `page_limit = 32`,
`next_offset = 0` and an empty accumulator. -/
def listMyCustomers (o : Erc3Client) (user : String) (fuel : Nat) : CustAgg :=
  listMyCustomersLoop o user fuel ⟨0, 32, []⟩

/-- Rule category of `distill_rules`
(`Literal["applies_to_guests", "applies_to_users", "other"]`). -/
inductive Category where
  | applies_to_guests
  | applies_to_users
  | other
deriving DecidableEq

/-- One distilled rule. -/
structure Rule where
  why_relevant_summary : String
  category : Category
  compact_rule : String
deriving DecidableEq

/-- The persisted distillation record (`DistillWikiRules`). -/
structure DistillWikiRules where
  company_name : String
  company_locations : List String
  company_execs : List String
  rules : List Rule
deriving DecidableEq

/-- `relevant_categories` of `distill_rules`: starts as `["other"]`,
then `applies_to_guests` is appended when `about.is_public`, otherwise
`applies_to_users`. -/
def relevantCategories (is_public : Bool) : List Category :=
  [Category.other] ++
    (if is_public then [Category.applies_to_guests] else [Category.applies_to_users])

/-- The rules rendered into the system prompt: the
`for r in distilled.rules: if r.category in relevant_categories`
filter of `distill_rules`, in source order. -/
def promptRules (distilled : DistillWikiRules) (is_public : Bool) : List Rule :=
  distilled.rules.filter (fun r => decide (r.category ∈ relevantCategories is_public))

/-- The bullet-list block appended to the prompt preamble: one
`"\n- " ++ compact_rule` line per included rule. -/
def rulesBlock (distilled : DistillWikiRules) (is_public : Bool) : String :=
  String.join ((promptRules distilled is_public).map
    (fun r => "\n- " ++ r.compact_rule))

/-- Python truthiness of an optional string: `None` and `""` are
falsy, so `a or b` keeps `a` exactly when it is a non-empty string. -/
def pyOrStr (a b : Option String) : Option String :=
  match a with
  | none => b
  | some s => if s = "" then b else a

/-- Python truthiness of an optional integer: `None` and `0` are
falsy. -/
def pyOrNat (a b : Option Nat) : Option Nat :=
  match a with
  | none => b
  | some 0 => b
  | some (n + 1) => some (n + 1)

/-- Python truthiness of a list: the empty list is falsy. -/
def pyOrList (a b : List String) : List String :=
  if a.isEmpty then b else a

/-- The in-place merge of `my_dispatch` for `Req_UpdateEmployeeInfo`:
each of the six payload fields is replaced by the current record's
value when the requested value is Python-falsy
(`cmd.notes = cmd.notes or cur.notes`, etc.). -/
def mergeEmployeeUpdate (cmd : UpdateEmployeeReq) (cur : EmployeeRecord) :
    UpdateEmployeeReq :=
  { cmd with
    notes := pyOrStr cmd.notes cur.notes
    salary := pyOrNat cmd.salary cur.salary
    wills := pyOrList cmd.wills cur.wills
    skills := pyOrList cmd.skills cur.skills
    location := pyOrStr cmd.location cur.location
    department := pyOrStr cmd.department cur.department }

/-- Modelled from the spec: the remote service's own handling of an
update-employee request is outside `src/` (external collaborator,
spec section 6); per the update operation's interface it stores the
submitted field values on the addressed employee record. -/
def storeEmployeeUpdate (store : EmployeeID → EmployeeRecord)
    (req : UpdateEmployeeReq) : EmployeeID → EmployeeRecord :=
  fun e =>
    if e = req.employee then
      { notes := req.notes, salary := req.salary, wills := req.wills,
        skills := req.skills, location := req.location,
        department := req.department }
    else store e

/-- The `Req_UpdateEmployeeInfo` branch of `my_dispatch`, run against
a functional employee store: first pull the current record
(`client.get_employee(cmd.employee).employee`), merge the falsy
fields from it, then write the merged request. -/
def dispatchUpdateEmployee (store : EmployeeID → EmployeeRecord)
    (cmd : UpdateEmployeeReq) : EmployeeID → EmployeeRecord :=
  storeEmployeeUpdate store (mergeEmployeeUpdate cmd (store cmd.employee))

/-- The action catalog dispatched by `my_dispatch`.  The variants the
adapter inspects are explicit; every other member of the `NextStep`
union reaches the final `return client.dispatch(cmd)` unchanged and is
folded into `passthrough` (with `updateWiki` kept explicit because the
delete rewrite produces it). -/
inductive Action where
  | provideAgentResponse (message outcome : String) (links : List Link)
  | updateEmployeeInfo (req : UpdateEmployeeReq)
  | deleteWikiPage (file : String) (changed_by : Option EmployeeID)
  | listAllProjectsForUser (user : EmployeeID)
  | listAllCustomersForUser (user : EmployeeID)
  | updateWiki (file content : String) (changed_by : Option EmployeeID)
  | passthrough (name : String)
deriving DecidableEq

/-- Outcome of `my_dispatch` as observed by the decision loop:
a serialized payload, an `ApiException` detail, an uncaught
non-`ApiException` (`crashD`), or fuel exhaustion of an inner
aggregator loop. -/
inductive DispatchOutcome where
  | okD (payload : String)
  | apiErrD (detail : String)
  | crashD
  | outOfFuelD
deriving DecidableEq

/-- Lift a direct remote-call result into a dispatch outcome. -/
def mapApi : ApiResult String → DispatchOutcome
  | .ok p => .okD p
  | .apiErr e => .apiErrD e

/-- Crude deterministic rendering of an aggregated projects response
(stands in for `model_dump_json`; no claim depends on its shape). -/
def dumpProjects (r : Resp_ListAllProjectsForUser) : String :=
  String.intercalate "," (r.lead_in.map (fun d => d.id)) ++ ";" ++
    String.intercalate "," (r.member_of.map (fun d => d.id))

/-- Crude deterministic rendering of an aggregated customers
response. -/
def dumpCustomers (r : Resp_ListAllCustomersForUser) : String :=
  String.intercalate "," (r.customers.map (fun d => d.id))

/-- `my_dispatch`: update-employee first pulls and merges, wiki delete
is rewritten to an update with empty content, the two composite
actions run the aggregators, the terminal response drops links whose
id equals the current actor's id (`l.id != about.current_user`), and
everything else is forwarded unchanged. -/
def myDispatch (client : Erc3Client) (current_user : Option EmployeeID)
    (cmd : Action) (fuel : Nat) : DispatchOutcome :=
  match cmd with
  | .updateEmployeeInfo req =>
    match client.get_employee req.employee with
    | .apiErr e => .apiErrD e
    | .ok cur =>
      mapApi (client.dispatchRemote (.updateEmployeeInfo (mergeEmployeeUpdate req cur)))
  | .deleteWikiPage file changed_by =>
    mapApi (client.dispatchRemote (.updateWiki file "" changed_by))
  | .listAllProjectsForUser user =>
    match listMyProjects client user fuel with
    | .ok resp => .okD (dumpProjects resp)
    | .fatalApi e => .apiErrD e
    | .crash => .crashD
    | .outOfFuel => .outOfFuelD
  | .listAllCustomersForUser user =>
    match listMyCustomers client user fuel with
    | .ok resp => .okD (dumpCustomers resp)
    | .fatalApi e => .apiErrD e
    | .outOfFuel => .outOfFuelD
  | .provideAgentResponse message outcome links =>
    mapApi (client.dispatchRemote
      (.provideAgentResponse message outcome
        (links.filter (fun l => ¬ (some l.id = current_user)))))
  | .updateWiki file content changed_by =>
    mapApi (client.dispatchRemote (.updateWiki file content changed_by))
  | .passthrough name =>
    mapApi (client.dispatchRemote (.other name))

/-- Role tag of one conversation-log message. -/
inductive Role where
  | system
  | user
  | assistant
  | tool
deriving DecidableEq

/-- One message of the conversation log.  `content` is optional
because the preflight explanation appended at line 276 of `agent.py`
is `Optional[str]`; the recorded action of an assistant message's
`tool_calls` entry is kept as the action value itself instead of its
JSON dump. -/
structure Msg where
  role : Role
  content : Option String
  action : Option Action
  tool_call_id : Option String
deriving DecidableEq

/-- The model's structured decision (`NextStep`). -/
structure NextStep where
  current_state : String
  plan_remaining_steps_brief : List String
  task_completed : Bool
  function : Action

/-- Denial reason of the preflight schema. -/
inductive DenialReason where
  | security_violation
  | request_not_supported_by_api
  | more_information_needed
  | may_pass
deriving DecidableEq

/-- The preflight verdict (`RequestPreflightCheck`); the schema
constrains the confidence to 1–5 but the code only compares it with
4. -/
structure RequestPreflightCheck where
  current_actor : String
  preflight_check_explanation_brief : Option String
  denial_reason : DenialReason
  outcome_confidence_1_to_5 : Nat
  answer_requires_listing_actors_projects : Bool

/-- Environment of one `run_agent` call: the remote client, the
current actor id (`about.current_user`), the system prompt built by
`distill_rules`, the task text, the model's preflight answer and the
model's per-query decision (a pure function of the full log). -/
structure RunEnv where
  client : Erc3Client
  current_user : Option EmployeeID
  system_prompt : String
  task_text : String
  preflight : RequestPreflightCheck
  llm : List Msg → NextStep

/-- `f"step_{i + 1}"`. -/
def stepName (i : Nat) : String := "step_" ++ toString (i + 1)

/-- The assistant log entry recorded before dispatch: the first
planned step as content plus the chosen action as the recorded tool
call. -/
def assistantMsg (i : Nat) (job : NextStep) : Msg :=
  { role := .assistant,
    content := some (job.plan_remaining_steps_brief.headD ""),
    action := some job.function,
    tool_call_id := some (stepName i) }

/-- The tool log entry holding the dispatch observation. -/
def toolMsg (i : Nat) (txt : String) : Msg :=
  { role := .tool, content := some txt, action := none,
    tool_call_id := some (stepName i) }

/-- Exit of the `for i in range(20)` loop: terminal response executed
(`break`), the 20 iterations exhausted, an uncaught exception
(`crashed`), or inner-loop fuel exhaustion.  Each exit carries the
number of started steps and the log at exit. -/
inductive LoopExit where
  | terminal (outcome message : String) (steps : Nat) (log : List Msg)
  | exhausted (steps : Nat) (log : List Msg)
  | crashed (steps : Nat) (log : List Msg)
  | outOfFuel (steps : Nat) (log : List Msg)
deriving DecidableEq

/-- The decision loop of `run_agent` (lines 279–325), indexed by the
remaining iteration budget `r` (called with `r = 20`) and the current
step index `i`.  Each iteration queries the model on the full log,
appends the assistant entry, dispatches, and then either breaks on the
terminal variant or appends the `DONE:`/`ERROR:`-tagged tool
observation and continues. -/
def runLoop (env : RunEnv) (fuel : Nat) :
    Nat → Nat → List Msg → LoopExit
  | 0, i, log => .exhausted i log
  | r + 1, i, log =>
    match myDispatch env.client env.current_user (env.llm log).function fuel with
    | .crashD => .crashed (i + 1) (log ++ [assistantMsg i (env.llm log)])
    | .outOfFuelD => .outOfFuel (i + 1) (log ++ [assistantMsg i (env.llm log)])
    | .okD payload =>
      match (env.llm log).function with
      | .provideAgentResponse message outcome _ =>
        .terminal outcome message (i + 1) (log ++ [assistantMsg i (env.llm log)])
      | _ =>
        runLoop env fuel r (i + 1)
          (log ++ [assistantMsg i (env.llm log), toolMsg i ("DONE: " ++ payload)])
    | .apiErrD detail =>
      match (env.llm log).function with
      | .provideAgentResponse message outcome _ =>
        .terminal outcome message (i + 1) (log ++ [assistantMsg i (env.llm log)])
      | _ =>
        runLoop env fuel r (i + 1)
          (log ++ [assistantMsg i (env.llm log), toolMsg i ("ERROR: " ++ detail)])

/-- Result of `run_agent`: either the preflight gate's immediate
terminal response (message and outcome code of the two
`provide_agent_response` early returns) or the exit of the decision
loop. -/
inductive RunResult where
  | preflightDenied (message outcome : String)
  | looped (exit : LoopExit)
deriving DecidableEq

/-- The log seeded at lines 259–262: system prompt, then the task
text wrapped as `Request: '...'`. -/
def initLog (env : RunEnv) : List Msg :=
  [{ role := .system, content := some env.system_prompt, action := none,
     tool_call_id := none },
   { role := .user, content := some ("Request: '" ++ env.task_text ++ "'"),
     action := none, tool_call_id := none }]

/-- The system note appended when the preflight gate falls through:
its (optional) explanation text. -/
def explanationMsg (pc : RequestPreflightCheck) : Msg :=
  { role := .system, content := pc.preflight_check_explanation_brief,
    action := none, tool_call_id := none }

/-- `run_agent` after the prompt build: preflight gate then the
decision loop.  With confidence ≥ 4 the reason
`request_not_supported_by_api` returns `("Not supported",
"none_unsupported")` and `security_violation` returns
`("Security check failed", "denied_security")`, both before any loop
iteration; in every other case the explanation is appended and the
loop runs for up to 20 steps. -/
def runAgent (env : RunEnv) (fuel : Nat) : RunResult :=
  if 4 ≤ env.preflight.outcome_confidence_1_to_5 then
    if env.preflight.denial_reason = .request_not_supported_by_api then
      .preflightDenied "Not supported" "none_unsupported"
    else if env.preflight.denial_reason = .security_violation then
      .preflightDenied "Security check failed" "denied_security"
    else
      .looped (runLoop env fuel 20 0 (initLog env ++ [explanationMsg env.preflight]))
  else
    .looped (runLoop env fuel 20 0 (initLog env ++ [explanationMsg env.preflight]))

/-- Number of decision-loop steps started before the loop exited. -/
def stepsOf : LoopExit → Nat
  | .terminal _ _ steps _ => steps
  | .exhausted steps _ => steps
  | .crashed steps _ => steps
  | .outOfFuel steps _ => steps

/-- Steps consumed by a whole run (a preflight denial consumes
none). -/
def runSteps : RunResult → Nat
  | .preflightDenied _ _ => 0
  | .looped e => stepsOf e

/-- A remote client whose searches return one empty final page and
whose direct calls all succeed; used as a benign concrete
environment. -/
def idleClient : Erc3Client :=
  { search_projects := fun _ _ _ => .ok ⟨some [], -1⟩
    get_project := fun p => .ok ⟨p, []⟩
    search_customers := fun _ _ _ => .ok ⟨some [], -1⟩
    get_customer := fun c => .ok ⟨c⟩
    get_employee := fun _ => .ok ⟨none, none, [], [], none, none⟩
    dispatchRemote := fun _ => .ok "ok" }

/-- A decision that immediately picks the terminal response. -/
def finishStep : NextStep :=
  { current_state := "done"
    plan_remaining_steps_brief := ["finish"]
    task_completed := true
    function := .provideAgentResponse "done" "completed" [] }

/-- A low-confidence preflight verdict that falls through. -/
def pcMayPass : RequestPreflightCheck :=
  { current_actor := "guest"
    preflight_check_explanation_brief := some "fine"
    denial_reason := .may_pass
    outcome_confidence_1_to_5 := 1
    answer_requires_listing_actors_projects := false }

/-- A confident unsupported-request verdict. -/
def pcUnsupported : RequestPreflightCheck :=
  { pcMayPass with
    denial_reason := .request_not_supported_by_api
    outcome_confidence_1_to_5 := 5 }

/-- Benign run environment: benign client, terminal first decision,
low-confidence preflight. -/
def idleEnv : RunEnv :=
  { client := idleClient
    current_user := none
    system_prompt := "sys"
    task_text := "task"
    preflight := pcMayPass
    llm := fun _ => finishStep }

/-- C10: dispatching a delete-documentation-page action performs
exactly the same remote call as dispatching an update-page action
with empty content and the identical file and attribution, hence the
same observable remote effect under every client. -/
theorem C10_delete_is_empty_update (f : String) (cb : Option EmployeeID)
    (client : Erc3Client) (cu : Option EmployeeID) (fuel : Nat) :
    myDispatch client cu (.deleteWikiPage f cb) fuel
      = myDispatch client cu (.updateWiki f "" cb) fuel ∧
    myDispatch client cu (.deleteWikiPage f cb) fuel
      = mapApi (client.dispatchRemote (.updateWiki f "" cb)) :=
  ⟨rfl, rfl⟩

/-- C8: the rules rendered into the system prompt include every
other-category rule; a guest-category rule is included iff the actor
is public, and a user-category rule iff the actor is authenticated. -/
theorem C8_prompt_rule_filter (d : DistillWikiRules) (is_public : Bool)
    (r : Rule) (hr : r ∈ d.rules) :
    (r.category = .other → r ∈ promptRules d is_public) ∧
    (r.category = .applies_to_guests →
      (r ∈ promptRules d is_public ↔ is_public = true)) ∧
    (r.category = .applies_to_users →
      (r ∈ promptRules d is_public ↔ is_public = false)) := by
  refine ⟨?_, ?_, ?_⟩ <;> intro hc <;>
    cases is_public <;>
      simp [promptRules, List.mem_filter, hr, relevantCategories, hc]

/-- Concrete distilled record used to witness the prompt filter. -/
def ruleOther : Rule :=
  { why_relevant_summary := "w", category := .other, compact_rule := "r0" }

/-- Concrete distilled record with a single other-category rule. -/
def distilledW : DistillWikiRules :=
  { company_name := "acme", company_locations := [], company_execs := []
    rules := [ruleOther] }

/-- Witness for C8 at a concrete record: the other-category rule is
rendered for a public actor. -/
theorem C8_prompt_rule_filter_witness :
    ruleOther ∈ promptRules distilledW true :=
  (C8_prompt_rule_filter distilledW true ruleOther (by simp [distilledW])).1 rfl

/-- Absorption of the Python `or` on optional strings. -/
theorem pyOrStr_absorb (a b : Option String) :
    pyOrStr a (pyOrStr a b) = pyOrStr a b := by
  cases a with
  | none => rfl
  | some s =>
    by_cases h : s = "" <;> simp [pyOrStr, h]

/-- Absorption of the Python `or` on optional naturals. -/
theorem pyOrNat_absorb (a b : Option Nat) :
    pyOrNat a (pyOrNat a b) = pyOrNat a b := by
  cases a with
  | none => rfl
  | some n => cases n <;> rfl

/-- Absorption of the Python `or` on lists. -/
theorem pyOrList_absorb (a b : List String) :
    pyOrList a (pyOrList a b) = pyOrList a b := by
  by_cases h : a.isEmpty <;> simp [pyOrList, h]

/-- The merge never changes the addressed employee. -/
theorem mergeEmployeeUpdate_employee (cmd : UpdateEmployeeReq)
    (cur : EmployeeRecord) :
    (mergeEmployeeUpdate cmd cur).employee = cmd.employee := rfl

/-- C6: an update-employee-info dispatch reads the current record and
fills unset fields from it, so a partial update leaves every unset
field (and every other employee) unchanged, and resubmitting the same
partial update is idempotent. -/
theorem C6_partial_update_frame (store : EmployeeID → EmployeeRecord)
    (cmd : UpdateEmployeeReq) :
    (cmd.notes = none →
      (dispatchUpdateEmployee store cmd cmd.employee).notes
        = (store cmd.employee).notes) ∧
    (cmd.salary = none →
      (dispatchUpdateEmployee store cmd cmd.employee).salary
        = (store cmd.employee).salary) ∧
    (cmd.wills = [] →
      (dispatchUpdateEmployee store cmd cmd.employee).wills
        = (store cmd.employee).wills) ∧
    (cmd.skills = [] →
      (dispatchUpdateEmployee store cmd cmd.employee).skills
        = (store cmd.employee).skills) ∧
    (cmd.location = none →
      (dispatchUpdateEmployee store cmd cmd.employee).location
        = (store cmd.employee).location) ∧
    (cmd.department = none →
      (dispatchUpdateEmployee store cmd cmd.employee).department
        = (store cmd.employee).department) ∧
    (∀ e, e ≠ cmd.employee → dispatchUpdateEmployee store cmd e = store e) ∧
    (∀ e, dispatchUpdateEmployee (dispatchUpdateEmployee store cmd) cmd e
        = dispatchUpdateEmployee store cmd e) := by
  refine ⟨?_, ?_, ?_, ?_, ?_, ?_, ?_, ?_⟩
  case _ => intro h; simp [dispatchUpdateEmployee, storeEmployeeUpdate,
    mergeEmployeeUpdate, h, pyOrStr]
  case _ => intro h; simp [dispatchUpdateEmployee, storeEmployeeUpdate,
    mergeEmployeeUpdate, h, pyOrNat]
  case _ => intro h; simp [dispatchUpdateEmployee, storeEmployeeUpdate,
    mergeEmployeeUpdate, h, pyOrList]
  case _ => intro h; simp [dispatchUpdateEmployee, storeEmployeeUpdate,
    mergeEmployeeUpdate, h, pyOrList]
  case _ => intro h; simp [dispatchUpdateEmployee, storeEmployeeUpdate,
    mergeEmployeeUpdate, h, pyOrStr]
  case _ => intro h; simp [dispatchUpdateEmployee, storeEmployeeUpdate,
    mergeEmployeeUpdate, h, pyOrStr]
  case _ =>
    intro e he
    simp [dispatchUpdateEmployee, storeEmployeeUpdate, mergeEmployeeUpdate, he]
  case _ =>
    intro e
    by_cases he : e = cmd.employee
    · subst he
      simp only [dispatchUpdateEmployee, storeEmployeeUpdate,
        mergeEmployeeUpdate_employee, if_pos rfl]
      simp only [mergeEmployeeUpdate]
      simp [pyOrStr_absorb, pyOrNat_absorb, pyOrList_absorb]
    · simp [dispatchUpdateEmployee, storeEmployeeUpdate,
        mergeEmployeeUpdate_employee, he]

/-- Concrete store for the C6 witness. -/
def storeW : EmployeeID → EmployeeRecord := fun _ =>
  { notes := some "old notes", salary := some 100, wills := ["w1"]
    skills := ["s1"], location := some "berlin", department := some "dev" }

/-- Concrete partial update for the C6 witness: only the location is
set. -/
def cmdW : UpdateEmployeeReq :=
  { employee := "e1", notes := none, salary := none, wills := []
    skills := [], location := some "paris", department := none }

/-- Witness for C6 at a concrete store and partial update: the notes
stay unchanged and resubmission is idempotent at the target. -/
theorem C6_partial_update_frame_witness :
    (dispatchUpdateEmployee storeW cmdW cmdW.employee).notes
        = (storeW cmdW.employee).notes ∧
    dispatchUpdateEmployee (dispatchUpdateEmployee storeW cmdW) cmdW "e1"
        = dispatchUpdateEmployee storeW cmdW "e1" := by
  have h := C6_partial_update_frame storeW cmdW
  exact ⟨h.1 rfl, h.2.2.2.2.2.2.2 "e1"⟩

/-- C5: the preflight gate short-circuits to an immediate terminal
response exactly when confidence ≥ 4 and the reason is
request-not-supported (outcome `none_unsupported`) or
security-violation (outcome `denied_security`); every other verdict
falls through to the loop with the explanation appended to the log. -/
theorem C5_preflight_gate (env : RunEnv) (fuel : Nat) :
    (4 ≤ env.preflight.outcome_confidence_1_to_5 →
      env.preflight.denial_reason = .request_not_supported_by_api →
      runAgent env fuel = .preflightDenied "Not supported" "none_unsupported") ∧
    (4 ≤ env.preflight.outcome_confidence_1_to_5 →
      env.preflight.denial_reason = .security_violation →
      runAgent env fuel = .preflightDenied "Security check failed" "denied_security") ∧
    (env.preflight.outcome_confidence_1_to_5 < 4 ∨
        env.preflight.denial_reason = .more_information_needed ∨
        env.preflight.denial_reason = .may_pass →
      runAgent env fuel
        = .looped (runLoop env fuel 20 0 (initLog env ++ [explanationMsg env.preflight]))) ∧
    (∀ m o, runAgent env fuel = .preflightDenied m o →
      4 ≤ env.preflight.outcome_confidence_1_to_5 ∧
        (env.preflight.denial_reason = .request_not_supported_by_api ∨
          env.preflight.denial_reason = .security_violation)) := by
  by_cases hc : 4 ≤ env.preflight.outcome_confidence_1_to_5 <;>
    cases hr : env.preflight.denial_reason <;>
      simp [runAgent, hc, hr]

/-- Environment with a confident unsupported-request verdict. -/
def envUnsupported : RunEnv := { idleEnv with preflight := pcUnsupported }

/-- Witness for C5 at a concrete environment: a confidence-5
unsupported-request verdict yields the immediate terminal response
with outcome `none_unsupported`. -/
theorem C5_preflight_gate_witness :
    runAgent envUnsupported 1 = .preflightDenied "Not supported" "none_unsupported" :=
  (C5_preflight_gate envUnsupported 1).1 (by decide) rfl

/-- C4: when a paged fetch of `list_my_projects` fails with a
page-limit error, the loop halves the page size and retries at the
same offset, except that once the halved size is ≤ 2 it re-raises the
error as fatal. -/
theorem C4_page_limit_backoff (o : Erc3Client) (user : String)
    (s : ProjState) (fuel : Nat) (e : String)
    (hs : o.search_projects s.offset s.page_limit user = .apiErr e)
    (hp : hasPageLimitMsg e = true) :
    (s.page_limit / 2 ≤ 2 →
      listMyProjectsLoop o user (fuel + 1) s = .fatalApi e) ∧
    (¬ s.page_limit / 2 ≤ 2 →
      listMyProjectsLoop o user (fuel + 1) s
        = listMyProjectsLoop o user fuel { s with page_limit := s.page_limit / 2 }) := by
  constructor <;> intro h <;> simp [listMyProjectsLoop, hs, hp, h]

/-- The injected page-limit error message. -/
def plMsg : String := "page limit exceeded"

/-- A client whose project search always reports a page-limit
error. -/
def plClient : Erc3Client :=
  { idleClient with search_projects := fun _ _ _ => .apiErr plMsg }

/-- Witness for C4: injecting page-limit errors at every page size
drives the loop through limits 32, 16, 8, 4 and then raises fatally
at the floor instead of retrying further. -/
theorem C4_page_limit_backoff_witness :
    listMyProjects plClient "u1" 9 = .fatalApi plMsg := by
  calc listMyProjects plClient "u1" 9
      = listMyProjectsLoop plClient "u1" 8 ⟨0, 16, [], []⟩ :=
        (C4_page_limit_backoff plClient "u1" ⟨0, 32, [], []⟩ 8 plMsg rfl
          (by decide)).2 (by decide)
    _ = listMyProjectsLoop plClient "u1" 7 ⟨0, 8, [], []⟩ :=
        (C4_page_limit_backoff plClient "u1" ⟨0, 16, [], []⟩ 7 plMsg rfl
          (by decide)).2 (by decide)
    _ = listMyProjectsLoop plClient "u1" 6 ⟨0, 4, [], []⟩ :=
        (C4_page_limit_backoff plClient "u1" ⟨0, 8, [], []⟩ 6 plMsg rfl
          (by decide)).2 (by decide)
    _ = .fatalApi plMsg :=
        (C4_page_limit_backoff plClient "u1" ⟨0, 4, [], []⟩ 5 plMsg rfl
          (by decide)).1 (by decide)

/-- The first team entry for the user, as selected by
`[t for t in detail.team if t.employee == user][0]` in
`list_my_projects`. -/
def userEntry (user : String) (d : ProjectDetail) : Option TeamEntry :=
  (d.team.filter (fun t => t.employee == user)).head?

/-- The details the loop puts into `lead_in`: those whose selected
team entry has role `"Lead"`, in traversal order. -/
def leadPart (user : String) (details : List ProjectDetail) :
    List ProjectDetail :=
  details.filter (fun d => (userEntry user d).map TeamEntry.role == some "Lead")

/-- The details the loop puts into `member_of`. -/
def memberPart (user : String) (details : List ProjectDetail) :
    List ProjectDetail :=
  details.filter (fun d => !((userEntry user d).map TeamEntry.role == some "Lead"))

/-- Derivation that, starting from `off`, the project search pages
through to the −1 sentinel in `n` successful fetches at page size 32,
yielding the summaries `items` in page order, each page advancing to
the server-provided next offset. -/
inductive SearchRun (o : Erc3Client) (user : String) :
    Int → List String → Nat → Prop where
  | last (off : Int) (resp : SearchProjectsResp)
      (hs : o.search_projects off 32 user = .ok resp)
      (hlast : resp.next_offset = -1) :
      SearchRun o user off (resp.projects.getD []) 1
  | step (off : Int) (resp : SearchProjectsResp) (rest : List String) (n : Nat)
      (hs : o.search_projects off 32 user = .ok resp)
      (hnext : resp.next_offset ≠ -1)
      (htail : SearchRun o user resp.next_offset rest n) :
      SearchRun o user off (resp.projects.getD [] ++ rest) (n + 1)

/-- Page-body lemma: when every summary's detail fetch succeeds and
the user occurs in every fetched team, the body finishes normally and
appends the Lead/non-Lead partitions of the page in order. -/
theorem processProjects_ok (o : Erc3Client) (user : String)
    (detailOf : String → ProjectDetail) :
    ∀ (items : List String) (ls ms : List ProjectDetail),
      (∀ p ∈ items,
        o.get_project p = .ok (detailOf p) ∧ (userEntry user (detailOf p)).isSome) →
      processProjects o user items ls ms
        = .done (ls ++ leadPart user (items.map detailOf))
            (ms ++ memberPart user (items.map detailOf)) := by
  intro items
  induction items with
  | nil => intro ls ms _; simp [processProjects, leadPart, memberPart]
  | cons p rest ih =>
    intro ls ms h
    obtain ⟨hget, hsome⟩ := h p (List.mem_cons_self p rest)
    obtain ⟨t, ht⟩ := Option.isSome_iff_exists.mp hsome
    have ht' : ((detailOf p).team.filter (fun t => t.employee == user)).head?
        = some t := ht
    have hrest : ∀ q ∈ rest,
        o.get_project q = .ok (detailOf q) ∧ (userEntry user (detailOf q)).isSome :=
      fun q hq => h q (List.mem_cons_of_mem p hq)
    by_cases hrole : t.role == "Lead"
    · have hpred : ((userEntry user (detailOf p)).map TeamEntry.role
          == some "Lead") = true := by
        simp only [userEntry, ht', Option.map_some]
        simpa using hrole
      simp only [processProjects, hget, ht', hrole, if_pos, List.map_cons]
      rw [ih (ls ++ [detailOf p]) ms hrest]
      simp [leadPart, memberPart, List.filter_cons, hpred, List.append_assoc]
    · have hpred : ((userEntry user (detailOf p)).map TeamEntry.role
          == some "Lead") = false := by
        simp only [userEntry, ht', Option.map_some]
        simpa using hrole
      simp only [processProjects, hget, ht']
      rw [if_neg (by simpa using hrole)]
      rw [ih ls (ms ++ [detailOf p]) hrest]
      simp [leadPart, memberPart, List.filter_cons, hpred, List.append_assoc]

/-- Loop lemma for C7: under a successful page trace and total detail
fetches, the loop accumulates the ordered partitions page by page and
returns exactly when it observes next-offset −1. -/
theorem listMyProjectsLoop_run (o : Erc3Client) (user : String)
    (detailOf : String → ProjectDetail) :
    ∀ {off : Int} {items : List String} {n : Nat},
      SearchRun o user off items n →
      (∀ p ∈ items,
        o.get_project p = .ok (detailOf p) ∧ (userEntry user (detailOf p)).isSome) →
      ∀ fuel, n ≤ fuel → ∀ ls ms,
        listMyProjectsLoop o user fuel ⟨off, 32, ls, ms⟩
          = .ok ⟨ls ++ leadPart user (items.map detailOf),
              ms ++ memberPart user (items.map detailOf)⟩ := by
  intro off items n hrun
  induction hrun with
  | last off resp hs hlast =>
    intro h fuel hfuel ls ms
    match fuel, hfuel with
    | fuel + 1, _ =>
      simp only [listMyProjectsLoop, hs]
      rw [processProjects_ok o user detailOf _ ls ms h]
      simp [hlast]
  | step off resp rest n hs hnext htail ih =>
    intro h fuel hfuel ls ms
    match fuel, hfuel with
    | fuel + 1, hfuel =>
      have hpage : ∀ p ∈ resp.projects.getD [],
          o.get_project p = .ok (detailOf p) ∧ (userEntry user (detailOf p)).isSome :=
        fun p hp => h p (List.mem_append_left _ hp)
      have hrest : ∀ p ∈ rest,
          o.get_project p = .ok (detailOf p) ∧ (userEntry user (detailOf p)).isSome :=
        fun p hp => h p (List.mem_append_right _ hp)
      simp only [listMyProjectsLoop, hs]
      rw [processProjects_ok o user detailOf _ ls ms hpage]
      have hne : (resp.next_offset == -1) = false := by
        simpa using hnext
      simp only [hne, Bool.false_eq_true, if_neg, reduceIte]
      rw [ih hrest fuel (Nat.le_of_succ_le_succ hfuel)]
      simp [leadPart, memberPart, List.filter_append, List.append_assoc]

/-- C7: from offset 0 and page size 32, with a detail fetched for
every summary, the aggregator returns upon next-offset −1 the full
Lead/non-Lead partition of all fetched records in order. -/
theorem C7_aggregator_pagination (o : Erc3Client) (user : String)
    (detailOf : String → ProjectDetail) (items : List String)
    (n fuel : Nat)
    (hrun : SearchRun o user 0 items n)
    (hdet : ∀ p ∈ items,
      o.get_project p = .ok (detailOf p) ∧ (userEntry user (detailOf p)).isSome)
    (hfuel : n ≤ fuel) :
    listMyProjects o user fuel
      = .ok ⟨leadPart user (items.map detailOf),
          memberPart user (items.map detailOf)⟩ := by
  have h := listMyProjectsLoop_run o user detailOf hrun hdet fuel hfuel [] []
  simpa [listMyProjects] using h

/-- Project identifiers of the synthetic paged scenario. -/
def pid (i : Nat) : String := "p" ++ toString i

/-- Page 1 of the scenario (32 summaries). -/
def scenPage0 : List String := (List.range 32).map pid

/-- Page 2 of the scenario (32 summaries). -/
def scenPage1 : List String := (List.range 32).map (fun i => pid (32 + i))

/-- Page 3 of the scenario (5 summaries). -/
def scenPage2 : List String := (List.range 5).map (fun i => pid (64 + i))

/-- All 69 scenario summaries in page order. -/
def scenItems : List String := scenPage0 ++ (scenPage1 ++ scenPage2)

/-- Scenario details: every project's team contains the user `u7`,
with role Lead exactly for even-numbered projects. -/
def scenDetail (p : String) : ProjectDetail :=
  { id := p
    team := [{ employee := "u7"
               role := if (((List.range 69).filter (fun i => i % 2 == 0)).map pid).contains p
                       then "Lead" else "Member" }] }

/-- Scenario client: three pages of sizes 32, 32, 5 with next-offsets
32, 64, −1. -/
def scenClient : Erc3Client :=
  { idleClient with
    search_projects := fun off _ _ =>
      if off = 0 then .ok ⟨some scenPage0, 32⟩
      else if off = 32 then .ok ⟨some scenPage1, 64⟩
      else if off = 64 then .ok ⟨some scenPage2, -1⟩
      else .apiErr "bad offset"
    get_project := fun p => .ok (scenDetail p) }

/-- The scenario client pages through its three pages. -/
theorem scenClient_searchRun : SearchRun scenClient "u7" 0 scenItems 3 := by
  have h2 : SearchRun scenClient "u7" 64 scenPage2 1 :=
    SearchRun.last 64 ⟨some scenPage2, -1⟩ rfl rfl
  have h1 : SearchRun scenClient "u7" 32 (scenPage1 ++ scenPage2) 2 :=
    SearchRun.step 32 ⟨some scenPage1, 64⟩ scenPage2 1 rfl (by decide) h2
  exact SearchRun.step 0 ⟨some scenPage0, 32⟩ (scenPage1 ++ scenPage2) 2 rfl
    (by decide) h1

/-- Witness for C7: the 3-page scenario with sizes 32, 32, 5 and
next-offsets 32, 64, −1 returns all 69 records, correctly
partitioned. -/
theorem C7_aggregator_pagination_witness :
    listMyProjects scenClient "u7" 20
      = .ok ⟨leadPart "u7" (scenItems.map scenDetail),
          memberPart "u7" (scenItems.map scenDetail)⟩ ∧
    (scenItems.map scenDetail).length = 69 := by
  refine ⟨C7_aggregator_pagination scenClient "u7" scenDetail scenItems 3 20
    scenClient_searchRun ?_ (by decide), by decide⟩
  decide

/-- Page-body lemma for C9: a summary whose fetched detail's team has
no entry for the user makes the body raise the uncaught indexing
error, whatever was accumulated before it. -/
theorem processProjects_crash (o : Erc3Client) (user : String)
    (bad : String) (rest : List String) (dbad : ProjectDetail)
    (hbad : o.get_project bad = .ok dbad)
    (hnone : userEntry user dbad = none) :
    ∀ (pre : List String) (ls ms : List ProjectDetail),
      (∀ p ∈ pre, ∃ d, o.get_project p = .ok d ∧ (userEntry user d).isSome) →
      processProjects o user (pre ++ bad :: rest) ls ms = .crash := by
  intro pre
  induction pre with
  | nil =>
    intro ls ms _
    have hnone' : (dbad.team.filter (fun t => t.employee == user)).head? = none :=
      hnone
    simp [processProjects, hbad, hnone']
  | cons p pre ih =>
    intro ls ms h
    obtain ⟨d, hget, hsome⟩ := h p (List.mem_cons_self p pre)
    obtain ⟨t, ht⟩ := Option.isSome_iff_exists.mp hsome
    have ht' : (d.team.filter (fun t => t.employee == user)).head? = some t := ht
    have hpre : ∀ q ∈ pre, ∃ e, o.get_project q = .ok e ∧ (userEntry user e).isSome :=
      fun q hq => h q (List.mem_cons_of_mem p hq)
    by_cases hrole : t.role == "Lead" <;>
      simp [processProjects, hget, ht', hrole, ih _ _ hpre]

/-- C9: in the all-projects-for-user composite, if the first page
succeeds but some summary's fetched detail has no team entry for the
requested user, the `[... ][0]` indexing fails: the aggregator
crashes instead of returning, the adapter maps the crash through
uncaught, and the decision loop aborts without appending any
error-tagged tool observation. -/
theorem C9_missing_team_entry_crash (o : Erc3Client) (user : String)
    (fuel : Nat) (resp : SearchProjectsResp) (pre rest : List String)
    (bad : String) (dbad : ProjectDetail)
    (h1 : o.search_projects 0 32 user = .ok resp)
    (h2 : resp.projects.getD [] = pre ++ bad :: rest)
    (h3 : ∀ p ∈ pre, ∃ d, o.get_project p = .ok d ∧ (userEntry user d).isSome)
    (h4 : o.get_project bad = .ok dbad)
    (h5 : userEntry user dbad = none) :
    listMyProjects o user (fuel + 1) = .crash ∧
    (∀ cu, myDispatch o cu (.listAllProjectsForUser user) (fuel + 1) = .crashD) ∧
    (∀ (env : RunEnv) (r i : Nat) (log : List Msg),
      env.client = o → (env.llm log).function = .listAllProjectsForUser user →
      runLoop env (fuel + 1) (r + 1) i log
        = .crashed (i + 1) (log ++ [assistantMsg i (env.llm log)])) := by
  have hagg : listMyProjects o user (fuel + 1) = .crash := by
    simp only [listMyProjects, listMyProjectsLoop, h1]
    rw [h2, processProjects_crash o user bad rest dbad h4 h5 pre _ _ h3]
  have hdisp : ∀ cu, myDispatch o cu (.listAllProjectsForUser user) (fuel + 1)
      = .crashD := by
    intro cu
    simp [myDispatch, hagg]
  refine ⟨hagg, hdisp, ?_⟩
  intro env r i log hcl hfn
  simp only [runLoop, hfn, hcl, hdisp env.current_user]

/-- Client for the C9 witness: one page with one project whose team
is empty. -/
def crashClient : Erc3Client :=
  { idleClient with
    search_projects := fun _ _ _ => .ok ⟨some ["a"], -1⟩
    get_project := fun p => .ok ⟨p, []⟩ }

/-- Witness for C9 at a concrete client: the aggregator crashes and
the adapter surfaces the crash, not a recoverable error. -/
theorem C9_missing_team_entry_crash_witness :
    listMyProjects crashClient "u1" 3 = .crash ∧
    myDispatch crashClient none (.listAllProjectsForUser "u1") 3 = .crashD := by
  have h := C9_missing_team_entry_crash crashClient "u1" 2 ⟨some ["a"], -1⟩
    [] [] "a" ⟨"a", []⟩ rfl rfl (by simp) rfl rfl
  exact ⟨h.1, h.2.1 none⟩

/-- C1 (amended): when dispatch raises a recoverable domain error,
the loop captures it; for every non-terminal action variant it
appends the `ERROR:`-tagged tool observation and continues with the
next iteration, while for the terminal-response variant it exits
immediately without appending the observation. -/
theorem C1_error_observation (env : RunEnv) (fuel r i : Nat)
    (log : List Msg) (d : String)
    (hd : myDispatch env.client env.current_user (env.llm log).function fuel
      = .apiErrD d) :
    ((∀ m o ls, (env.llm log).function ≠ .provideAgentResponse m o ls) →
      runLoop env fuel (r + 1) i log
        = runLoop env fuel r (i + 1)
            (log ++ [assistantMsg i (env.llm log),
              toolMsg i ("ERROR: " ++ d)])) ∧
    (∀ m o ls, (env.llm log).function = .provideAgentResponse m o ls →
      runLoop env fuel (r + 1) i log
        = .terminal o m (i + 1) (log ++ [assistantMsg i (env.llm log)])) := by
  constructor
  · intro hnt
    cases hfn : (env.llm log).function with
    | provideAgentResponse m o ls => exact absurd hfn (hnt m o ls)
    | _ =>
      rw [hfn] at hd
      simp only [runLoop, hfn, hd]
  · intro m o ls hfn
    rw [hfn] at hd
    simp only [runLoop, hfn, hd]

/-- Client whose direct remote calls all raise a domain error. -/
def boomClient : Erc3Client :=
  { idleClient with dispatchRemote := fun _ => .apiErr "boom" }

/-- A decision that picks a non-terminal action (a wiki-page
delete). -/
def deleteStep : NextStep :=
  { current_state := "del"
    plan_remaining_steps_brief := ["delete page"]
    task_completed := false
    function := .deleteWikiPage "guide.md" none }

/-- Environment whose non-terminal dispatch raises a domain error. -/
def envDeleteBoom : RunEnv :=
  { idleEnv with client := boomClient, llm := fun _ => deleteStep }

/-- Witness for the amended C1 at a concrete environment: the failed
non-terminal dispatch turns into an `ERROR:`-tagged tool observation
and the loop moves on to the next iteration. -/
theorem C1_error_observation_witness :
    runLoop envDeleteBoom 5 1 0 []
      = runLoop envDeleteBoom 5 0 1
          [assistantMsg 0 deleteStep, toolMsg 0 "ERROR: boom"] := by
  have h := C1_error_observation envDeleteBoom 5 0 0 [] "boom" rfl
  exact h.1 (by intro m o ls; simp [envDeleteBoom, deleteStep])

/-- Environment for the C1 counterexample: preflight falls through,
the model immediately picks the terminal response, and its dispatch
raises. -/
def envTerminalBoom : RunEnv := { idleEnv with client := boomClient }

/-- The final log of the C1 counterexample run: seed, explanation,
assistant entry — and no tool observation. -/
def logTerminalBoom : List Msg :=
  initLog envTerminalBoom ++ [explanationMsg pcMayPass, assistantMsg 0 finishStep]

/-- Counterexample to C1 as stated: dispatching the terminal-response
variant raises a recoverable domain error, yet the run ends at once
and no error-tagged tool observation is ever appended to the log. -/
theorem C1_counterexample :
    myDispatch boomClient none (.provideAgentResponse "done" "completed" []) 5
      = .apiErrD "boom" ∧
    runAgent envTerminalBoom 5
      = .looped (.terminal "completed" "done" 1 logTerminalBoom) ∧
    logTerminalBoom.filter (fun m => m.role == Role.tool) = [] := by
  refine ⟨rfl, ?_, by decide⟩
  decide

/-- A non-page-limit domain error message. -/
def nfMsg : String := "project not found"

/-- Client whose project search always raises the non-page-limit
domain error. -/
def nfClient : Erc3Client :=
  { idleClient with search_projects := fun _ _ _ => .apiErr nfMsg }

/-- The aggregator never returns under this client, for any fuel: the
caught error is neither propagated nor resolved, the same request is
retried forever, and the adapter therefore never reports the error to
the decision loop. -/
def swallowsForever (o : Erc3Client) (user : String) : Prop :=
  ∀ fuel, listMyProjects o user fuel = .outOfFuel ∧
    myDispatch o none (.listAllProjectsForUser user) fuel = .outOfFuelD

/-- C2 (failing-input evaluation): a non-page-limit `ApiException`
raised by the paged search inside `list_my_projects` is caught by the
`except ApiException` handler, does not match the page-limit test,
and the unchanged request is retried indefinitely — the error never
propagates out of the Dispatch Adapter to the Decision Loop. -/
theorem C2_non_pagelimit_swallowed : swallowsForever nfClient "u1" := by
  have key : ∀ f, listMyProjectsLoop nfClient "u1" f ⟨0, 32, [], []⟩ = .outOfFuel := by
    intro f
    induction f with
    | zero => rfl
    | succ n ih =>
      have hpl : hasPageLimitMsg nfMsg = false := by decide
      have hs : nfClient.search_projects 0 32 "u1" = .apiErr nfMsg := rfl
      simp only [listMyProjectsLoop, hs, hpl, Bool.false_eq_true, if_false]
      exact ih
  intro fuel
  have h1 : listMyProjects nfClient "u1" fuel = .outOfFuel := key fuel
  refine ⟨h1, ?_⟩
  simp [myDispatch, h1]

/-- Lifted direct-call results are never fuel exhaustion. -/
theorem mapApi_ne_outOfFuel (x : ApiResult String) : mapApi x ≠ .outOfFuelD := by
  cases x <;> simp [mapApi]

/-- Dispatch can exhaust fuel only through the two aggregator
loops. -/
theorem myDispatch_not_outOfFuel (client : Erc3Client)
    (cu : Option EmployeeID) (cmd : Action) (fuel : Nat)
    (hp : ∀ u, listMyProjects client u fuel ≠ .outOfFuel)
    (hc : ∀ u, listMyCustomers client u fuel ≠ .outOfFuel) :
    myDispatch client cu cmd fuel ≠ .outOfFuelD := by
  cases cmd with
  | updateEmployeeInfo req =>
    simp only [myDispatch]
    cases client.get_employee req.employee with
    | apiErr e => simp
    | ok cur => exact mapApi_ne_outOfFuel _
  | listAllProjectsForUser u =>
    simp only [myDispatch]
    cases h : listMyProjects client u fuel with
    | outOfFuel => exact absurd h (hp u)
    | _ => simp
  | listAllCustomersForUser u =>
    simp only [myDispatch]
    cases h : listMyCustomers client u fuel with
    | outOfFuel => exact absurd h (hc u)
    | _ => simp
  | provideAgentResponse m o ls => exact mapApi_ne_outOfFuel _
  | deleteWikiPage f cb => exact mapApi_ne_outOfFuel _
  | updateWiki f c cb => exact mapApi_ne_outOfFuel _
  | passthrough n => exact mapApi_ne_outOfFuel _

/-- The loop never starts more steps than its remaining budget
allows. -/
theorem stepsOf_runLoop_le (env : RunEnv) (fuel : Nat) :
    ∀ (r i : Nat) (log : List Msg), stepsOf (runLoop env fuel r i log) ≤ i + r := by
  intro r
  induction r with
  | zero => intro i log; simp [runLoop, stepsOf]
  | succ r ih =>
    intro i log
    simp only [runLoop]
    cases myDispatch env.client env.current_user (env.llm log).function fuel with
    | crashD => simp only [stepsOf]; omega
    | outOfFuelD => simp only [stepsOf]; omega
    | okD p =>
      cases (env.llm log).function with
      | provideAgentResponse m o ls => simp only [stepsOf]; omega
      | updateEmployeeInfo req => exact le_trans (ih (i + 1) _) (by omega)
      | deleteWikiPage f cb => exact le_trans (ih (i + 1) _) (by omega)
      | listAllProjectsForUser u => exact le_trans (ih (i + 1) _) (by omega)
      | listAllCustomersForUser u => exact le_trans (ih (i + 1) _) (by omega)
      | updateWiki f c cb => exact le_trans (ih (i + 1) _) (by omega)
      | passthrough n => exact le_trans (ih (i + 1) _) (by omega)
    | apiErrD d =>
      cases (env.llm log).function with
      | provideAgentResponse m o ls => simp only [stepsOf]; omega
      | updateEmployeeInfo req => exact le_trans (ih (i + 1) _) (by omega)
      | deleteWikiPage f cb => exact le_trans (ih (i + 1) _) (by omega)
      | listAllProjectsForUser u => exact le_trans (ih (i + 1) _) (by omega)
      | listAllCustomersForUser u => exact le_trans (ih (i + 1) _) (by omega)
      | updateWiki f c cb => exact le_trans (ih (i + 1) _) (by omega)
      | passthrough n => exact le_trans (ih (i + 1) _) (by omega)

/-- When neither aggregator can exhaust its fuel, the loop never
reports fuel exhaustion. -/
theorem runLoop_not_outOfFuel (env : RunEnv) (fuel : Nat)
    (hp : ∀ u, listMyProjects env.client u fuel ≠ .outOfFuel)
    (hc : ∀ u, listMyCustomers env.client u fuel ≠ .outOfFuel) :
    ∀ (r i : Nat) (log : List Msg) (s : Nat) (l : List Msg),
      runLoop env fuel r i log ≠ .outOfFuel s l := by
  intro r
  induction r with
  | zero => intro i log s l; simp [runLoop]
  | succ r ih =>
    intro i log s l
    simp only [runLoop]
    cases hM : myDispatch env.client env.current_user (env.llm log).function fuel with
    | outOfFuelD =>
      exact absurd hM (myDispatch_not_outOfFuel env.client env.current_user _ fuel hp hc)
    | crashD => simp
    | okD p =>
      cases (env.llm log).function with
      | provideAgentResponse m o ls => simp
      | updateEmployeeInfo req => exact ih (i + 1) _ s l
      | deleteWikiPage f cb => exact ih (i + 1) _ s l
      | listAllProjectsForUser u => exact ih (i + 1) _ s l
      | listAllCustomersForUser u => exact ih (i + 1) _ s l
      | updateWiki f c cb => exact ih (i + 1) _ s l
      | passthrough n => exact ih (i + 1) _ s l
    | apiErrD d =>
      cases (env.llm log).function with
      | provideAgentResponse m o ls => simp
      | updateEmployeeInfo req => exact ih (i + 1) _ s l
      | deleteWikiPage f cb => exact ih (i + 1) _ s l
      | listAllProjectsForUser u => exact ih (i + 1) _ s l
      | listAllCustomersForUser u => exact ih (i + 1) _ s l
      | updateWiki f c cb => exact ih (i + 1) _ s l
      | passthrough n => exact ih (i + 1) _ s l

/-- C3 (amended): every run consumes at most 20 decision-loop steps;
and whenever every aggregator invocation the client can serve
terminates, the run halts (never ends in fuel exhaustion). -/
theorem C3_step_budget (env : RunEnv) (fuel : Nat) :
    runSteps (runAgent env fuel) ≤ 20 ∧
    ((∀ u, listMyProjects env.client u fuel ≠ .outOfFuel) →
      (∀ u, listMyCustomers env.client u fuel ≠ .outOfFuel) →
      ∀ s l, runAgent env fuel ≠ .looped (.outOfFuel s l)) := by
  constructor
  · unfold runAgent
    split_ifs <;>
      simp only [runSteps] <;>
      first
        | omega
        | exact le_trans (stepsOf_runLoop_le env fuel 20 0 _) (by omega)
  · intro hp hc s l
    unfold runAgent
    split_ifs <;>
      simp only [ne_eq, RunResult.looped.injEq] <;>
      first
        | simp
        | exact runLoop_not_outOfFuel env fuel hp hc 20 0 _ s l

/-- Witness for C3 at a concrete environment: the benign run stays
within the budget and halts. -/
theorem C3_step_budget_witness :
    runSteps (runAgent idleEnv 1) ≤ 20 ∧
    ∀ s l, runAgent idleEnv 1 ≠ .looped (.outOfFuel s l) := by
  have h := C3_step_budget idleEnv 1
  refine ⟨h.1, h.2 ?_ ?_⟩
  · intro u
    have hu : listMyProjects idleClient u 1 = .ok ⟨[], []⟩ := rfl
    show listMyProjects idleClient u 1 ≠ .outOfFuel
    simp [hu]
  · intro u
    have hu : listMyCustomers idleClient u 1 = .ok ⟨[]⟩ := rfl
    show listMyCustomers idleClient u 1 ≠ .outOfFuel
    simp [hu]

/-- Client that always answers with the same page and the same next
offset, never reaching the −1 sentinel. -/
def stuckClient : Erc3Client :=
  { idleClient with search_projects := fun _ _ _ => .ok ⟨some [], 0⟩ }

/-- A decision that asks for the all-projects composite. -/
def askProjectsStep : NextStep :=
  { current_state := "listing"
    plan_remaining_steps_brief := ["list projects"]
    task_completed := false
    function := .listAllProjectsForUser "u1" }

/-- Environment whose first dispatched action enters the stuck
aggregator. -/
def envStuck : RunEnv :=
  { idleEnv with client := stuckClient, llm := fun _ => askProjectsStep }

/-- The run never halts: for every fuel bound it is still inside the
aggregator's first dispatch. -/
def RunDiverges (env : RunEnv) : Prop :=
  ∀ fuel, ∃ steps log, runAgent env fuel = .looped (.outOfFuel steps log)

/-- The log seen by the model at the first step of the stuck run. -/
def stuckLog : List Msg := initLog envStuck ++ [explanationMsg envStuck.preflight]

/-- Counterexample to C3 as stated: a remote service that never
returns next-offset −1 keeps the aggregator's `while True` loop — and
with it the whole run — from ever halting. -/
theorem C3_counterexample : RunDiverges envStuck := by
  have key : ∀ f, listMyProjectsLoop stuckClient "u1" f ⟨0, 32, [], []⟩ = .outOfFuel := by
    intro f
    induction f with
    | zero => rfl
    | succ n ih =>
      have hs : stuckClient.search_projects 0 32 "u1" = .ok ⟨some [], 0⟩ := rfl
      simp only [listMyProjectsLoop, hs, processProjects]
      simpa using ih
  intro fuel
  have hd : myDispatch envStuck.client envStuck.current_user
      (envStuck.llm stuckLog).function fuel = .outOfFuelD := by
    show myDispatch stuckClient none (.listAllProjectsForUser "u1") fuel = _
    simp [myDispatch, listMyProjects, key fuel]
  have hloop : runLoop envStuck fuel (19 + 1) 0 stuckLog
      = .outOfFuel (0 + 1) (stuckLog ++ [assistantMsg 0 (envStuck.llm stuckLog)]) := by
    simp only [runLoop, hd]
  refine ⟨1, stuckLog ++ [assistantMsg 0 (envStuck.llm stuckLog)], ?_⟩
  have hagent : runAgent envStuck fuel
      = .looped (runLoop envStuck fuel (19 + 1) 0 stuckLog) := rfl
  rw [hagent, hloop]

end Erc3Agent

